import Mathlib

/- Verification development for the chat streaming client in
   src/app/page.tsx of the repository.  The claims under study concern
   the conversation-state transitions (handleSend, pushDelta, the end of
   streamFromOllama), the newline framing and JSON delta decoding inside
   streamFromOllama, the post-stream markdown normalizer
   (normalizeMarkdown and collapseInlineCodeLines) and the render
   dispatch of ChatPage.  JavaScript strings are modelled as List Char;
   the pieces of the JavaScript runtime the page relies on
   (String.prototype.trim, String.prototype.split, String.prototype.trimEnd,
   the four regular expressions, and JSON.parse) are modelled explicitly
   below, each next to the definition that uses it. -/

/- The reserved placeholder content of a fresh assistant message: the
   literal "Thinking…" (with U+2026) compared against with === in
   pushDelta and in the render dispatch of ChatPage. -/
def thinkingSentinel : List Char := "Thinking…".data

/- Message roles, from the type Role = "user" | "assistant". -/
inductive Role where
  | user
  | assistant
deriving DecidableEq

/- interface ChatMessage { role: Role; content: string } -/
structure ChatMessage where
  role : Role
  content : List Char
deriving DecidableEq

/- The component state of ChatPage that the claims are about: the
   messages array, the input text field, the isStreaming flag, and
   aiIndexRef.current (the index of the in-flight assistant message,
   null when no stream was ever started). -/
structure ChatState where
  messages : List ChatMessage
  input : List Char
  isStreaming : Bool
  aiIndex : Option Nat
deriving DecidableEq

/- Whitespace in the sense of ECMAScript String.prototype.trim and
   String.prototype.trimEnd: WhiteSpace (TAB VT FF SP NBSP ZWNBSP and
   the Zs category) together with LineTerminator (LF CR LS PS). -/
def isJsWs (c : Char) : Bool :=
  let n := c.toNat
  n = 32 || n = 9 || n = 10 || n = 13 || n = 11 || n = 12 || n = 160 ||
  n = 0x1680 || (0x2000 ≤ n && n ≤ 0x200A) || n = 0x2028 || n = 0x2029 ||
  n = 0x202F || n = 0x205F || n = 0x3000 || n = 0xFEFF

/- Model of String.prototype.trim, used by handleSend on the input. -/
def jsTrim (cs : List Char) : List Char :=
  ((cs.dropWhile isJsWs).reverse.dropWhile isJsWs).reverse

/- Model of String.prototype.trimEnd, the last step of normalizeMarkdown. -/
def jsTrimEnd (cs : List Char) : List Char :=
  (cs.reverse.dropWhile isJsWs).reverse

/- Model of s.split("\n"): "".split gives [""], separators at the ends
   give empty pieces, exactly as in ECMAScript. -/
def splitOnNl : List Char → List (List Char)
  | [] => [[]]
  | c :: rest =>
    if c = '\n' then [] :: splitOnNl rest
    else
      match splitOnNl rest with
      | [] => [[c]]
      | l :: ls => (c :: l) :: ls

/- Joining a list of lines back with single newlines, used when the
   inline-code collapse rebuilds its output. -/
def interNl : List (List Char) → List Char
  | [] => []
  | [l] => l
  | l :: ls => l ++ '\n' :: interNl ls

/- What a maximal newline run of length n becomes under the first rule
   of normalizeMarkdown, md.replace with the pattern of three or more
   newlines and the replacement of exactly two. -/
def emitNl (n : Nat) : List Char :=
  if 3 ≤ n then ['\n', '\n'] else List.replicate n '\n'

def collapseNlAux : Nat → List Char → List Char
  | n, [] => emitNl n
  | n, c :: rest =>
    if c = '\n' then collapseNlAux (n + 1) rest
    else emitNl n ++ (c :: collapseNlAux 0 rest)

/- Model of md.replace collapsing every maximal run of three or more
   newlines to exactly two newlines (the global greedy regex matches
   exactly the maximal runs of length at least three). -/
def collapseNl (cs : List Char) : List Char := collapseNlAux 0 cs

/- A line consisting of a single inline-code span: one backtick, one or
   more characters none of which is a backtick, one closing backtick.
   These are the lines the regex of collapseInlineCodeLines groups. -/
def isInlineCodeLine (l : List Char) : Bool :=
  match l with
  | '`' :: rest =>
    2 ≤ rest.length && rest.dropLast.all (fun c => c ≠ '`') &&
      rest.getLast? == some '`'
  | _ => false

/- Model of l.replace stripping one leading and one trailing backtick,
   applied by the replacement callback to each line of a matched block. -/
def stripEdgeTicks (l : List Char) : List Char :=
  let a := match l with
    | '`' :: r => r
    | _ => l
  match a.getLast? with
  | some '`' => a.dropLast
  | _ => a

/- A piece of the line stream after grouping: an ordinary line, or a
   maximal group of at least three consecutive inline-code lines (the
   text the regex of collapseInlineCodeLines matches). -/
inductive MdPiece where
  | line (l : List Char)
  | block (ls : List (List Char))

def flushGroup (acc : List (List Char)) (rest : List MdPiece) : List MdPiece :=
  if 3 ≤ acc.length then MdPiece.block acc.reverse :: rest
  else acc.reverse.map MdPiece.line ++ rest

def groupRunsAux : List (List Char) → List (List Char) → List MdPiece
  | acc, [] => flushGroup acc []
  | acc, l :: ls =>
    if isInlineCodeLine l then groupRunsAux (l :: acc) ls
    else flushGroup acc (MdPiece.line l :: groupRunsAux [] ls)

def renderPiece : MdPiece → List Char
  | MdPiece.line l => l
  | MdPiece.block ls =>
    ("\n```text\n".data) ++ interNl (ls.map stripEdgeTicks) ++ ("\n```\n".data)

/- Reassembly of the pieces.  A single newline separates consecutive
   pieces, except that no separator is emitted before a converted block:
   the regex consumes the newline that precedes a matched group, and the
   replacement string itself begins with a newline (this is also why a
   block at the very start of the text gains a leading newline, and why
   the newline that follows a matched group, left in place by the
   lookahead, ends up doubled after the trailing newline of the
   replacement). -/
def renderGroups : List MdPiece → List Char
  | [] => []
  | [p] => renderPiece p
  | p :: q :: rest =>
    renderPiece p ++
      (match q with
       | MdPiece.block _ => []
       | _ => ['\n']) ++
      renderGroups (q :: rest)

/- Model of collapseInlineCodeLines: rewrite every maximal group of
   three or more consecutive single-backtick-wrapped lines into one
   fenced block tagged text, exactly as the global regex with its
   replacement callback does. -/
def collapseInlineCodeLines (md : List Char) : List Char :=
  renderGroups (groupRunsAux [] (splitOnNl md))

/- A line matched by the fence-counting regex: it starts with three
   backticks. -/
def isFenceLine (l : List Char) : Bool :=
  match l with
  | '`' :: '`' :: '`' :: _ => true
  | _ => false

/- The number of lines of the text that start with the triple-backtick
   fence marker, as counted by out.match with the multiline regex. -/
def fenceCount (cs : List Char) : Nat :=
  ((splitOnNl cs).filter (fun l => isFenceLine l)).length

/- Model of normalizeMarkdown: collapse long newline runs, collapse
   inline-code line groups, close an unterminated fence when the fence
   line count is odd, and trim trailing whitespace. -/
def normalizeMarkdown (md : List Char) : List Char :=
  let o1 := collapseNl md
  let o2 := collapseInlineCodeLines o1
  let o3 := if fenceCount o2 % 2 = 1 then o2 ++ ('\n' :: ("```".data)) else o2
  jsTrimEnd o3

/- JSON values as produced by JSON.parse.  Numbers keep their source
   text: the client never uses a numeric value, only the truthiness of
   message.content, which for a number depends only on whether the
   literal denotes zero. -/
inductive Json where
  | null
  | bool (b : Bool)
  | num (raw : List Char)
  | str (s : List Char)
  | arr (xs : List Json)
  | obj (fields : List (List Char × Json))

/- Whitespace accepted between JSON tokens by JSON.parse. -/
def skipJsonWs (cs : List Char) : List Char :=
  cs.dropWhile (fun c => c = ' ' || c = '\t' || c = '\n' || c = '\r')

def hexVal (c : Char) : Option Nat :=
  if '0' ≤ c ∧ c ≤ '9' then some (c.toNat - 48)
  else if 'a' ≤ c ∧ c ≤ 'f' then some (c.toNat - 87)
  else if 'A' ≤ c ∧ c ≤ 'F' then some (c.toNat - 55)
  else none

/- The body of a JSON string after the opening quote: ordinary
   characters, the short escapes, and unicode escapes; raw control
   characters are rejected, as JSON.parse rejects them.  A unicode
   escape denoting a surrogate half is approximated by the replacement
   behaviour of Char.ofNat; no input in this development uses one. -/
def parseStringBody : List Char → List Char → Option (List Char × List Char)
  | [], _ => none
  | '"' :: rest, acc => some (acc.reverse, rest)
  | '\\' :: e :: rest, acc =>
    if e = '"' then parseStringBody rest ('"' :: acc)
    else if e = '\\' then parseStringBody rest ('\\' :: acc)
    else if e = '/' then parseStringBody rest ('/' :: acc)
    else if e = 'b' then parseStringBody rest ('\x08' :: acc)
    else if e = 'f' then parseStringBody rest ('\x0c' :: acc)
    else if e = 'n' then parseStringBody rest ('\n' :: acc)
    else if e = 'r' then parseStringBody rest ('\r' :: acc)
    else if e = 't' then parseStringBody rest ('\t' :: acc)
    else if e = 'u' then
      match rest with
      | h1 :: h2 :: h3 :: h4 :: r2 =>
        match hexVal h1, hexVal h2, hexVal h3, hexVal h4 with
        | some a, some b, some c, some d =>
          parseStringBody r2 (Char.ofNat (a * 4096 + b * 256 + c * 16 + d) :: acc)
        | _, _, _, _ => none
      | _ => none
    else none
  | c :: rest, acc =>
    if c.toNat < 32 then none else parseStringBody rest (c :: acc)

def isDigitCh (c : Char) : Bool := '0' ≤ c && c ≤ '9'

/- A JSON number token: optional minus, an integer part with no leading
   zero, an optional fraction and an optional exponent, each demanding
   at least one digit, exactly the grammar JSON.parse enforces.  The raw
   token text is returned. -/
def parseNumberTok (cs : List Char) : Option (List Char × List Char) :=
  let (neg, cs1) := match cs with
    | '-' :: r => (['-'], r)
    | _ => (([] : List Char), cs)
  match cs1 with
  | [] => none
  | d :: r =>
    if d = '0' then
      match r with
      | d2 :: _ =>
        if isDigitCh d2 then none else some (neg ++ ['0'], r)
      | [] => some (neg ++ ['0'], r)
    else if isDigitCh d then
      let (ds, r2) := r.span isDigitCh
      some (neg ++ d :: ds, r2)
    else none

def parseFracTok (cs : List Char) : Option (List Char × List Char) :=
  match cs with
  | '.' :: r =>
    match r.span isDigitCh with
    | ([], _) => none
    | (ds, r2) => some ('.' :: ds, r2)
  | _ => some ([], cs)

def parseExpTok (cs : List Char) : Option (List Char × List Char) :=
  match cs with
  | e :: r =>
    if e = 'e' ∨ e = 'E' then
      let (sgn, r1) := match r with
        | '+' :: r2 => (['+'], r2)
        | '-' :: r2 => (['-'], r2)
        | _ => (([] : List Char), r)
      match r1.span isDigitCh with
      | ([], _) => none
      | (ds, r2) => some (e :: sgn ++ ds, r2)
    else some ([], cs)
  | [] => some ([], cs)

def parseNumber (cs : List Char) : Option (List Char × List Char) :=
  match parseNumberTok cs with
  | none => none
  | some (intPart, r1) =>
    match parseFracTok r1 with
    | none => none
    | some (fracPart, r2) =>
      match parseExpTok r2 with
      | none => none
      | some (expPart, r3) => some (intPart ++ fracPart ++ expPart, r3)

def stripLit (pat : List Char) (cs : List Char) : Option (List Char) :=
  match pat, cs with
  | [], _ => some cs
  | p :: ps, c :: rest => if c = p then stripLit ps rest else none
  | _ :: _, [] => none

mutual

/- One JSON value, fuelled recursive descent.  The position handed in
   already has leading whitespace consumed. -/
def parseValue : Nat → List Char → Option (Json × List Char)
  | 0, _ => none
  | fuel + 1, cs =>
    match cs with
    | [] => none
    | c :: rest =>
      if c = '{' then
        match skipJsonWs rest with
        | '}' :: r2 => some (Json.obj [], r2)
        | r2 => parseMembers fuel r2 []
      else if c = '[' then
        match skipJsonWs rest with
        | ']' :: r2 => some (Json.arr [], r2)
        | r2 => parseElements fuel r2 []
      else if c = '"' then
        match parseStringBody rest [] with
        | some (s, r2) => some (Json.str s, r2)
        | none => none
      else if c = 't' then
        (stripLit ("rue".data) rest).map (fun r2 => (Json.bool true, r2))
      else if c = 'f' then
        (stripLit ("alse".data) rest).map (fun r2 => (Json.bool false, r2))
      else if c = 'n' then
        (stripLit ("ull".data) rest).map (fun r2 => (Json.null, r2))
      else
        match parseNumber cs with
        | some (raw, r2) => some (Json.num raw, r2)
        | none => none

/- The members of an object after at least one is known to follow. -/
def parseMembers : Nat → List Char →
    List (List Char × Json) → Option (Json × List Char)
  | 0, _, _ => none
  | fuel + 1, cs, acc =>
    match cs with
    | '"' :: r =>
      match parseStringBody r [] with
      | some (k, r2) =>
        match skipJsonWs r2 with
        | ':' :: r3 =>
          match parseValue fuel (skipJsonWs r3) with
          | some (v, r4) =>
            match skipJsonWs r4 with
            | ',' :: r5 => parseMembers fuel (skipJsonWs r5) ((k, v) :: acc)
            | '}' :: r5 => some (Json.obj ((k, v) :: acc).reverse, r5)
            | _ => none
          | none => none
        | _ => none
      | none => none
    | _ => none

/- The elements of an array after at least one is known to follow. -/
def parseElements : Nat → List Char → List Json → Option (Json × List Char)
  | 0, _, _ => none
  | fuel + 1, cs, acc =>
    match parseValue fuel cs with
    | some (v, r2) =>
      match skipJsonWs r2 with
      | ',' :: r3 => parseElements fuel (skipJsonWs r3) (v :: acc)
      | ']' :: r3 => some (Json.arr (v :: acc).reverse, r3)
      | _ => none
    | none => none

end

/- Model of JSON.parse on a whole line: one value, with whitespace
   allowed around it and nothing else.  The fuel of one unit per input
   character is sufficient because every recursive call consumes at
   least one character first. -/
def jsonParse (cs : List Char) : Option Json :=
  match parseValue (cs.length + 1) (skipJsonWs cs) with
  | some (j, rest) => if skipJsonWs rest = [] then some j else none
  | none => none

/- Property access j[k] on a parsed JSON value, as JavaScript resolves
   it: an own property of an object (the last occurrence wins when keys
   repeat, as in JSON.parse), and undefined on every other value. -/
def getProp : Json → List Char → Option Json
  | Json.obj fs, k =>
    fs.foldl (fun acc p => if p.1 = k then some p.2 else acc) none
  | _, _ => none

/- Whether the literal text of a JSON number denotes zero (every
   mantissa digit is 0), which is exactly when the parsed number is
   falsy in JavaScript. -/
def isZeroNumLit (raw : List Char) : Bool :=
  ((raw.takeWhile (fun c => c ≠ 'e' ∧ c ≠ 'E')).filter isDigitCh).all
    (fun c => c = '0')

/- JavaScript truthiness of a JSON.parse result. -/
def jsTruthy : Json → Bool
  | Json.null => false
  | Json.bool b => b
  | Json.str s => s ≠ []
  | Json.num raw => !isZeroNumLit raw
  | Json.arr _ => true
  | Json.obj _ => true

/- JavaScript ToString on a JSON.parse result, as the string
   concatenation in pushDelta would apply it.  Exact for strings, the
   only case the backend protocol produces; approximate renderings are
   given for the other constructors. -/
def jsToStr : Json → List Char
  | Json.null => "null".data
  | Json.bool true => "true".data
  | Json.bool false => "false".data
  | Json.num raw => raw
  | Json.str s => s
  | Json.arr _ => "[array]".data
  | Json.obj _ => "[object Object]".data

/- The delta a framed line contributes: JSON.parse the line, read
   j?.message?.content, and keep it only when truthy, exactly the body
   of the per-line loop of streamFromOllama. -/
def deltaOf (line : List Char) : Option (List Char) :=
  match jsonParse line with
  | none => none
  | some j =>
    match (getProp j ("message".data)).bind (fun mj => getProp mj ("content".data)) with
    | none => none
    | some v => if jsTruthy v then some (jsToStr v) else none

/- The fragments one decoded chunk contributes: split on newlines,
   drop empty lines (filter Boolean), decode each survivor. -/
def processChunk (chunk : List Char) : List (List Char) :=
  ((splitOnNl chunk).filter (fun l => l ≠ [])).filterMap deltaOf

/- The whole fragment sequence of a chunked stream.  TextDecoder with
   the stream option is faithfully the identity on chunk boundaries that
   fall between code points, which all inputs considered here do; the
   essential point of the model is that streamFromOllama keeps no
   carry-over between chunks: each chunk is split on newlines by itself. -/
def runPipeline (chunks : List (List Char)) : List (List Char) :=
  (chunks.map processChunk).flatten

/- Decoding a sequence of already framed records, the Delta Decoder
   stage on its own. -/
def decodeRecords (ls : List (List Char)) : List (List Char) :=
  (ls.filter (fun l => l ≠ [])).filterMap deltaOf

/- Model of the content update of pushDelta: if the current content is
   exactly the sentinel it is discarded, and the delta is appended. -/
def applyDelta (content delta : List Char) : List Char :=
  (if content = thinkingSentinel then [] else content) ++ delta

def mapIdxFrom (f : Nat → ChatMessage → ChatMessage) :
    Nat → List ChatMessage → List ChatMessage
  | _, [] => []
  | n, m :: ms => f n m :: mapIdxFrom f (n + 1) ms

/- Model of pushDelta: when aiIndexRef.current is null the delta is
   dropped; otherwise the message at that index gets the applyDelta
   content update and every other message is kept as it is. -/
def pushDelta (s : ChatState) (delta : List Char) : ChatState :=
  match s.aiIndex with
  | none => s
  | some idx =>
    { s with
      messages := mapIdxFrom
        (fun i m =>
          if i = idx then { m with content := applyDelta m.content delta }
          else m)
        0 s.messages }

/- The assistant placeholder appended by handleSend. -/
def placeholderMsg : ChatMessage := ⟨Role.assistant, thinkingSentinel⟩

/- Model of handleSend up to its await: a no-op when the trimmed input
   is empty or a stream is active; otherwise it appends the trimmed user
   message and the placeholder, points aiIndexRef at the placeholder,
   clears the input, and the immediately awaited streamFromOllama sets
   the streaming flag as its first synchronous statement. -/
def handleSend (s : ChatState) : ChatState :=
  if jsTrim s.input = [] ∨ s.isStreaming = true then s
  else
    { messages := s.messages ++ [⟨Role.user, jsTrim s.input⟩, placeholderMsg],
      input := [],
      isStreaming := true,
      aiIndex := some (s.messages.length + 1) }

/- The request body streamFromOllama serialises, with the messages
   field built as history = messages.concat(latest).  The messages array
   read here is the render closure of handleSend, that is the log as it
   was before handleSend appended; the queued functional update is not
   visible to it.  The temperature option, a floating literal never read
   back by the client, is not modelled. -/
structure ChatRequest where
  model : List Char
  messages : List ChatMessage
  stream : Bool

def buildChatRequest (modelId : List Char) (closureMessages : List ChatMessage)
    (latest : ChatMessage) : ChatRequest :=
  ⟨modelId, closureMessages ++ [latest], true⟩

/- Model of the epilogue of streamFromOllama: clear the streaming flag,
   then write back the normalized content of the message aiIndexRef
   points at (when it is null, the comparison i === null fails on every
   index and the log is untouched).  aiIndexRef itself is not written. -/
def endStream (s : ChatState) : ChatState :=
  { s with
    isStreaming := false,
    messages := mapIdxFrom
      (fun i m =>
        if s.aiIndex = some i then
          { m with content := normalizeMarkdown m.content }
        else m)
      0 s.messages }

/- The three ways the transport can go: the fetch promise rejects, the
   response has no readable body, or a body delivers a finite sequence
   of decoded chunks. -/
inductive FetchOutcome where
  | rejected
  | noBody
  | ok (chunks : List (List Char))

/- Model of streamFromOllama after the request body is built: set the
   streaming flag; on a rejected fetch or an unreadable body clear it
   and return; otherwise push every fragment of every chunk in order and
   run the epilogue. -/
def streamFromOllama (s : ChatState) (outcome : FetchOutcome) : ChatState :=
  let s1 := { s with isStreaming := true }
  match outcome with
  | FetchOutcome.rejected => { s1 with isStreaming := false }
  | FetchOutcome.noBody => { s1 with isStreaming := false }
  | FetchOutcome.ok chunks =>
    endStream
      (chunks.foldl (fun st chunk => (processChunk chunk).foldl pushDelta st) s1)

/- The display form a message is mapped to by the render dispatch of
   ChatPage. -/
inductive RenderView where
  | typing
  | literal (c : List Char)
  | markdown (c : List Char)
deriving DecidableEq

/- Model of the render dispatch: content === "Thinking…" is tested
   first, then the role; user content is shown literally, assistant
   content goes to the external markdown renderer. -/
def renderMessage (m : ChatMessage) : RenderView :=
  if m.content = thinkingSentinel then RenderView.typing
  else if m.role = Role.assistant then RenderView.markdown m.content
  else RenderView.literal m.content

/- Model of greeting(): the seeded assistant message, as a function of
   the current hour. -/
def greeting (h : Nat) : List Char :=
  ("Good ".data) ++
    (if h < 12 then "morning".data
     else if h < 18 then "afternoon".data
     else "evening".data) ++
    ("! How can I help you today?".data)

/- The state after the mount effect seeded the greeting, with the given
   text sitting in the input field. -/
def initState (h : Nat) (inp : List Char) : ChatState :=
  ⟨[⟨Role.assistant, greeting h⟩], inp, false, none⟩

theorem mapIdxFrom_skip (upd : ChatMessage → ChatMessage) (t : Nat) :
    ∀ (l : List ChatMessage) (n : Nat), t < n →
      mapIdxFrom (fun i m => if i = t then upd m else m) n l = l := by
  intro l
  induction l with
  | nil => intro n _; rfl
  | cons m ms ih =>
    intro n hn
    simp only [mapIdxFrom]
    rw [if_neg (by omega), ih (n + 1) (by omega)]

theorem mapIdxFrom_update (upd : ChatMessage → ChatMessage) :
    ∀ (pre : List ChatMessage) (n t : Nat), t = n + pre.length →
      ∀ (m0 : ChatMessage) (post : List ChatMessage),
        mapIdxFrom (fun i m => if i = t then upd m else m) n (pre ++ m0 :: post)
          = pre ++ upd m0 :: post := by
  intro pre
  induction pre with
  | nil =>
    intro n t ht m0 post
    have ht' : t = n := by simpa using ht
    simp only [List.nil_append, mapIdxFrom]
    rw [if_pos (by omega), mapIdxFrom_skip upd t (post) (n + 1) (by omega)]
  | cons p ps ih =>
    intro n t ht m0 post
    have ht' : t = n + 1 + ps.length := by simp at ht; omega
    simp only [List.cons_append, mapIdxFrom, List.append_eq]
    rw [if_neg (by omega), ih (n + 1) t ht' m0 post]

theorem mapIdxFrom_get? (f : Nat → ChatMessage → ChatMessage) :
    ∀ (l : List ChatMessage) (n k : Nat),
      (mapIdxFrom f n l).get? k = (l.get? k).map (f (n + k)) := by
  intro l
  induction l with
  | nil => intro n k; rfl
  | cons m ms ih =>
    intro n k
    cases k with
    | zero => rfl
    | succ k =>
      show (mapIdxFrom f (n + 1) ms).get? k = Option.map (f (n + (k + 1))) (ms.get? k)
      rw [ih (n + 1) k]
      have h : n + 1 + k = n + (k + 1) := by omega
      rw [h]

theorem pushDelta_at (pre post : List ChatMessage) (m0 : ChatMessage)
    (inp : List Char) (fl : Bool) (d : List Char) :
    pushDelta ⟨pre ++ m0 :: post, inp, fl, some pre.length⟩ d =
      ⟨pre ++ { m0 with content := applyDelta m0.content d } :: post,
        inp, fl, some pre.length⟩ := by
  show (⟨mapIdxFrom
      (fun i m =>
        if i = pre.length then { m with content := applyDelta m.content d }
        else m)
      0 (pre ++ m0 :: post), inp, fl, some pre.length⟩ : ChatState) = _
  rw [mapIdxFrom_update _ pre 0 pre.length (by omega) m0 post]

theorem foldl_pushDelta_at :
    ∀ (ds : List (List Char)) (pre post : List ChatMessage) (m0 : ChatMessage)
      (inp : List Char) (fl : Bool),
      List.foldl pushDelta ⟨pre ++ m0 :: post, inp, fl, some pre.length⟩ ds =
        ⟨pre ++ { m0 with content := List.foldl applyDelta m0.content ds } :: post,
          inp, fl, some pre.length⟩ := by
  intro ds
  induction ds with
  | nil => intro pre post m0 inp fl; rfl
  | cons d ds ih =>
    intro pre post m0 inp fl
    show List.foldl pushDelta
        (pushDelta ⟨pre ++ m0 :: post, inp, fl, some pre.length⟩ d) ds = _
    rw [pushDelta_at, ih]
    rfl

theorem foldl_applyDelta_append :
    ∀ (ds : List (List Char)) (c : List Char),
      (∀ k, k < ds.length → c ++ (ds.take k).flatten ≠ thinkingSentinel) →
      List.foldl applyDelta c ds = c ++ ds.flatten := by
  intro ds
  induction ds with
  | nil => intro c _; simp
  | cons d ds ih =>
    intro c hc
    have hc0 : c ≠ thinkingSentinel := by
      have h := hc 0 (by simp)
      simpa using h
    show List.foldl applyDelta (applyDelta c d) ds = _
    have hstep : applyDelta c d = c ++ d := by
      unfold applyDelta
      rw [if_neg hc0]
    rw [hstep, ih (c ++ d) ?cond]
    case cond =>
      intro k hk
      have h := hc (k + 1) (by simpa using Nat.succ_lt_succ hk)
      simpa [List.append_assoc] using h
    simp [List.append_assoc]

theorem foldl_applyDelta_sentinel :
    ∀ (ds : List (List Char)), ds ≠ [] →
      (∀ k, k < ds.length → 0 < k → (ds.take k).flatten ≠ thinkingSentinel) →
      List.foldl applyDelta thinkingSentinel ds = ds.flatten := by
  intro ds hne hpre
  match ds with
  | d :: ds =>
    show List.foldl applyDelta (applyDelta thinkingSentinel d) ds = _
    have hstep : applyDelta thinkingSentinel d = d := by
      unfold applyDelta
      rw [if_pos rfl]
      simp
    rw [hstep, foldl_applyDelta_append ds d ?cond]
    · simp
    case cond =>
      intro k hk
      have h := hpre (k + 1) (by simpa using Nat.succ_lt_succ hk) (by omega)
      simpa using h

theorem jsTrimEnd_append_nonWs (xs : List Char) (c : Char) (h : isJsWs c = false) :
    jsTrimEnd (xs ++ [c]) = xs ++ [c] := by
  unfold jsTrimEnd
  rw [List.reverse_append]
  simp [List.dropWhile, h]

/-- Claim C1: the framing and decoding pipeline of streamFromOllama is NOT
invariant under chunk splits.  The single record with content "Hi",
delivered whole, yields the fragment "Hi"; the same bytes split in the
middle of the JSON record yield no fragment at all, because each half
of the record fails JSON.parse on its own and is silently dropped (no
carry-over buffer exists between chunks).  This settles the claim as a
code bug against the specified split-invariance. -/
theorem claim_C1_split_changes_output :
    ("\x7b\"message\":\x7b\"co".data) ++ ("ntent\":\"Hi\"\x7d\x7d\n".data) =
      ("\x7b\"message\":\x7b\"content\":\"Hi\"\x7d\x7d\n".data) ∧
    runPipeline [("\x7b\"message\":\x7b\"content\":\"Hi\"\x7d\x7d\n".data)] = [("Hi".data)] ∧
    runPipeline [("\x7b\"message\":\x7b\"co".data), ("ntent\":\"Hi\"\x7d\x7d\n".data)] = [] := by
  refine ⟨by decide, by decide, by decide⟩

/-- Claim C2: normalizeMarkdown is NOT idempotent.  On the input
consisting of a fence opener followed by two newlines, the first pass
appends a closing fence after the trailing newlines, creating a run of
three newlines; the second pass collapses that run, so the two results
differ.  This settles the claim as a code bug against the specified
idempotence. -/
theorem claim_C2_normalize_not_idempotent :
    normalizeMarkdown (normalizeMarkdown ("```\n\n".data)) ≠
      normalizeMarkdown ("```\n\n".data) ∧
    normalizeMarkdown ("```\n\n".data) = ("```\n\n\n```".data) ∧
    normalizeMarkdown ("```\n\n\n```".data) = ("```\n\n```".data) := by
  refine ⟨by decide, by decide, by decide⟩

/-- Claim C3, counterexample: the claim fails for the fragment sequence
whose first fragment is itself the literal "Thinking…".  After that
fragment the message content equals the sentinel again, so the next
fragment resets the content instead of appending: the final content is
"X", not the straight concatenation "Thinking…X". -/
theorem claim_C3_counterexample :
    (List.foldl pushDelta
        (⟨[placeholderMsg], [], true, some 0⟩ : ChatState)
        [thinkingSentinel, ("X".data)]).messages =
      [⟨Role.assistant, ("X".data)⟩] ∧
    (List.foldl pushDelta
        (⟨[placeholderMsg], [], true, some 0⟩ : ChatState)
        [thinkingSentinel, ("X".data)]).messages ≠
      [⟨Role.assistant, thinkingSentinel ++ ("X".data)⟩] := by
  refine ⟨by decide, by decide⟩

/-- Claim C3, amended: for every non-empty sequence of non-empty
fragments applied in order via pushDelta to a log whose active message
is the placeholder, the final content of that message is the straight
concatenation of the fragments — provided no concatenation of a proper
non-empty prefix of the fragments equals the placeholder sentinel
(otherwise the sentinel test of pushDelta misfires and discards the
text accumulated so far).  No other message, and no other field of the
state, changes. -/
theorem claim_C3_concat_amended :
    ∀ (ds : List (List Char)) (pre post : List ChatMessage)
      (inp : List Char) (fl : Bool),
      ds ≠ [] →
      (∀ d ∈ ds, d ≠ []) →
      (∀ k, k < ds.length → 0 < k → (ds.take k).flatten ≠ thinkingSentinel) →
      List.foldl pushDelta
          (⟨pre ++ placeholderMsg :: post, inp, fl, some pre.length⟩ : ChatState)
          ds
        = ⟨pre ++ ⟨Role.assistant, ds.flatten⟩ :: post, inp, fl, some pre.length⟩ := by
  intro ds pre post inp fl hne _ hpre
  rw [foldl_pushDelta_at ds pre post placeholderMsg inp fl]
  have hc : List.foldl applyDelta placeholderMsg.content ds = ds.flatten :=
    foldl_applyDelta_sentinel ds hne hpre
  rw [hc]
  rfl

theorem claim_C3_concat_amended_witness :
    List.foldl pushDelta
        (⟨[⟨Role.assistant, greeting 9⟩] ++ placeholderMsg :: [], [], true,
          some 1⟩ : ChatState)
        [("Hel".data), ("lo, ".data), ("world!".data)]
      = ⟨[⟨Role.assistant, greeting 9⟩] ++
          ⟨Role.assistant,
            ([("Hel".data), ("lo, ".data), ("world!".data)]).flatten⟩ :: [],
          [], true, some 1⟩ :=
  claim_C3_concat_amended [("Hel".data), ("lo, ".data), ("world!".data)]
    [⟨Role.assistant, greeting 9⟩] [] [] true
    (by decide) (by decide) (by decide)

/-- Claim C4, counterexample: the stream epilogue does not invalidate the
active stream handle.  On a finished one-message state, aiIndexRef still
holds index 0 after the epilogue, and a late pushDelta mutates the log
instead of being dropped. -/
theorem claim_C4_counterexample :
    (endStream
        (⟨[⟨Role.assistant, ("Hi".data)⟩], [], true, some 0⟩ : ChatState)).aiIndex
      = some 0 ∧
    pushDelta
        (endStream
          (⟨[⟨Role.assistant, ("Hi".data)⟩], [], true, some 0⟩ : ChatState))
        ("!".data)
      ≠ endStream
          (⟨[⟨Role.assistant, ("Hi".data)⟩], [], true, some 0⟩ : ChatState) := by
  refine ⟨by decide, by decide⟩

/-- Claim C4, amended: the stream epilogue clears the streaming flag and
normalizes the target message, but it does not invalidate the active
stream handle: aiIndexRef keeps its value, so a late pushDelta after the
epilogue still finds the handle and writes the delta into the previously
targeted message rather than dropping it.  Deltas are dropped only when
no stream was ever started (handle null). -/
theorem claim_C4_handle_survives_amended :
    ∀ (s : ChatState) (i : Nat) (m : ChatMessage) (d : List Char),
      s.aiIndex = some i →
      (endStream s).messages.get? i = some m →
      (endStream s).isStreaming = false ∧
      (endStream s).aiIndex = some i ∧
      (pushDelta (endStream s) d).messages.get? i =
        some { m with content := applyDelta m.content d } := by
  intro s i m d h1 h2
  obtain ⟨ms, inp, fl, ai⟩ := s
  simp only [ChatState.aiIndex] at h1
  subst h1
  refine ⟨rfl, rfl, ?_⟩
  show (mapIdxFrom
      (fun j mm =>
        if j = i then { mm with content := applyDelta mm.content d } else mm)
      0 (endStream ⟨ms, inp, fl, some i⟩).messages).get? i = _
  rw [mapIdxFrom_get?]
  rw [h2]
  simp

theorem claim_C4_handle_survives_amended_witness :
    (endStream
        (⟨[⟨Role.assistant, ("Hi".data)⟩], [], true, some 0⟩ : ChatState)).isStreaming
      = false ∧
    (endStream
        (⟨[⟨Role.assistant, ("Hi".data)⟩], [], true, some 0⟩ : ChatState)).aiIndex
      = some 0 ∧
    (pushDelta
        (endStream
          (⟨[⟨Role.assistant, ("Hi".data)⟩], [], true, some 0⟩ : ChatState))
        ("!".data)).messages.get? 0 =
      some { (⟨Role.assistant, ("Hi".data)⟩ : ChatMessage) with
              content := applyDelta ("Hi".data) ("!".data) } :=
  claim_C4_handle_survives_amended
    (⟨[⟨Role.assistant, ("Hi".data)⟩], [], true, some 0⟩ : ChatState)
    0 ⟨Role.assistant, ("Hi".data)⟩ ("!".data) rfl (by decide)

theorem handleSend_append (s : ChatState) (h1 : jsTrim s.input ≠ [])
    (h2 : s.isStreaming = false) :
    (handleSend s).messages =
      s.messages ++ [⟨Role.user, jsTrim s.input⟩, placeholderMsg] := by
  unfold handleSend
  rw [if_neg (by simp [h1, h2])]

/-- Claim C5: handleSend is a no-op (the whole state, in particular the
conversation log, is unchanged) when the trimmed input is empty or a
stream is active; in every other case it appends exactly one user
message with the trimmed input followed by exactly one assistant
placeholder message. -/
theorem claim_C5_send_guard :
    ∀ s : ChatState,
      ((jsTrim s.input = [] ∨ s.isStreaming = true) → handleSend s = s) ∧
      (jsTrim s.input ≠ [] → s.isStreaming = false →
        (handleSend s).messages =
          s.messages ++ [⟨Role.user, jsTrim s.input⟩, placeholderMsg]) := by
  intro s
  constructor
  · intro h
    unfold handleSend
    rw [if_pos h]
  · intro h1 h2
    exact handleSend_append s h1 h2

theorem claim_C5_send_guard_witness :
    handleSend (initState 9 ("   ".data)) = initState 9 ("   ".data) ∧
    handleSend (⟨[], ("hi".data), true, none⟩ : ChatState) =
      (⟨[], ("hi".data), true, none⟩ : ChatState) ∧
    (handleSend (initState 9 (" hi ".data))).messages =
      (initState 9 (" hi ".data)).messages ++
        [⟨Role.user, jsTrim (" hi ".data)⟩, placeholderMsg] :=
  ⟨(claim_C5_send_guard (initState 9 ("   ".data))).1 (Or.inl (by decide)),
   (claim_C5_send_guard (⟨[], ("hi".data), true, none⟩ : ChatState)).1
     (Or.inr rfl),
   (claim_C5_send_guard (initState 9 (" hi ".data))).2 (by decide) rfl⟩

/-- Claim C6: a framed line that fails to parse as JSON is silently
discarded and does not terminate decoding: for any two records that
decode to deltas, with any non-parsing line between them, both deltas
are still delivered in their original order. -/
theorem claim_C6_malformed_line_dropped :
    ∀ (r1 m r2 d1 d2 : List Char),
      deltaOf r1 = some d1 → deltaOf r2 = some d2 → jsonParse m = none →
      decodeRecords [r1, m, r2] = [d1, d2] := by
  intro r1 m r2 d1 d2 h1 h2 h3
  have hnil : deltaOf ([] : List Char) = none := rfl
  have hr1 : r1 ≠ [] := by
    intro h
    rw [h, hnil] at h1
    exact Option.noConfusion h1
  have hr2 : r2 ≠ [] := by
    intro h
    rw [h, hnil] at h2
    exact Option.noConfusion h2
  have hm : deltaOf m = none := by
    unfold deltaOf
    rw [h3]
  by_cases hm0 : m = []
  · simp [decodeRecords, hm0, hr1, hr2, List.filterMap, h1, h2]
  · simp [decodeRecords, hm0, hr1, hr2, List.filterMap, h1, h2, hm]

theorem claim_C6_malformed_line_dropped_witness :
    decodeRecords
        [("\x7b\"message\":\x7b\"content\":\"A\"\x7d\x7d".data), ("\x7boops".data),
          ("\x7b\"message\":\x7b\"content\":\"B\"\x7d\x7d".data)]
      = [("A".data), ("B".data)] :=
  claim_C6_malformed_line_dropped
    ("\x7b\"message\":\x7b\"content\":\"A\"\x7d\x7d".data) ("\x7boops".data)
    ("\x7b\"message\":\x7b\"content\":\"B\"\x7d\x7d".data)
    ("A".data) ("B".data) (by decide) (by decide) rfl

/-- Claim C7: when the fetch promise rejects, or when the response has no
readable body, streamFromOllama leaves the conversation log unchanged
(the placeholder stays visible) and ends with the streaming flag
cleared; in the model it is a total function, so no exception escapes. -/
theorem claim_C7_connection_failure_recovery :
    ∀ s : ChatState,
      (streamFromOllama s FetchOutcome.rejected).messages = s.messages ∧
      (streamFromOllama s FetchOutcome.rejected).isStreaming = false ∧
      (streamFromOllama s FetchOutcome.noBody).messages = s.messages ∧
      (streamFromOllama s FetchOutcome.noBody).isStreaming = false :=
  fun _ => ⟨rfl, rfl, rfl, rfl⟩

/-- Claim C8: normalizeMarkdown appends exactly one closing fence line
when the fence-line count of its intermediate text (after the newline
collapse and the inline-code collapse, which is where the code counts)
is odd, and appends none when it is even; in particular, on an input
that the first two rules leave unchanged and that carries no trailing
whitespace — such as one with exactly one fence opener and no closer —
the result is the same text plus an appended closing fence line when the
count is odd, and the same text unchanged when the count is even. -/
theorem claim_C8_fence_parity :
    ∀ md : List Char,
      (fenceCount (collapseInlineCodeLines (collapseNl md)) % 2 = 1 →
        normalizeMarkdown md =
          jsTrimEnd
            (collapseInlineCodeLines (collapseNl md) ++ ('\n' :: ("```".data)))) ∧
      (fenceCount (collapseInlineCodeLines (collapseNl md)) % 2 = 0 →
        normalizeMarkdown md =
          jsTrimEnd (collapseInlineCodeLines (collapseNl md))) ∧
      (collapseNl md = md → collapseInlineCodeLines md = md →
        jsTrimEnd md = md → fenceCount md % 2 = 1 →
        normalizeMarkdown md = md ++ ('\n' :: ("```".data))) ∧
      (collapseNl md = md → collapseInlineCodeLines md = md →
        jsTrimEnd md = md → fenceCount md % 2 = 0 →
        normalizeMarkdown md = md) := by
  intro md
  have hN : normalizeMarkdown md =
      jsTrimEnd
        (if fenceCount (collapseInlineCodeLines (collapseNl md)) % 2 = 1 then
          collapseInlineCodeLines (collapseNl md) ++ ('\n' :: ("```".data))
        else collapseInlineCodeLines (collapseNl md)) := rfl
  have hfix : ∀ h1 : collapseNl md = md, ∀ h2 : collapseInlineCodeLines md = md,
      collapseInlineCodeLines (collapseNl md) = md := by
    intro h1 h2
    rw [h1, h2]
  refine ⟨?odd, ?even, ?oddFix, ?evenFix⟩
  case odd =>
    intro h
    rw [hN, if_pos h]
  case even =>
    intro h
    rw [hN, if_neg (by omega)]
  case oddFix =>
    intro h1 h2 h3 h4
    rw [hN, hfix h1 h2, if_pos h4]
    have hsplit : md ++ ('\n' :: ("```".data)) =
        (md ++ ['\n', '`', '`']) ++ ['`'] := by
      simp
    rw [hsplit, jsTrimEnd_append_nonWs _ '`' (by decide), ← hsplit]
  case evenFix =>
    intro h1 h2 h3 h4
    rw [hN, hfix h1 h2, if_neg (by omega), h3]

theorem claim_C8_fence_parity_witness :
    normalizeMarkdown ("hello\n```python\nx = 1".data) =
      ("hello\n```python\nx = 1".data) ++ ('\n' :: ("```".data)) ∧
    normalizeMarkdown ("a\n\nb".data) = ("a\n\nb".data) :=
  ⟨(claim_C8_fence_parity ("hello\n```python\nx = 1".data)).2.2.1
      (by decide) (by decide) (by decide) (by decide),
   (claim_C8_fence_parity ("a\n\nb".data)).2.2.2
      (by decide) (by decide) (by decide) (by decide)⟩

/-- Claim C9, counterexample: the render dispatch tests the sentinel
before the role, so a user message whose content is exactly the
placeholder sentinel renders as the animated thinking indicator, not as
its literal content as the claim requires; such a message is reachable
by submitting the sentinel text as input. -/
theorem claim_C9_counterexample :
    renderMessage ⟨Role.user, thinkingSentinel⟩ = RenderView.typing ∧
    renderMessage ⟨Role.user, thinkingSentinel⟩ ≠
      RenderView.literal thinkingSentinel ∧
    (handleSend (⟨[], thinkingSentinel, false, none⟩ : ChatState)).messages.get? 0
      = some ⟨Role.user, thinkingSentinel⟩ := by
  refine ⟨by decide, by decide, by decide⟩

/-- Claim C9, amended: the sentinel test runs first, for every message
regardless of role: any message whose content equals the placeholder
sentinel renders as the thinking indicator; otherwise a user message
renders as its literal content and an assistant message is handed
unmodified to the external markdown renderer. -/
theorem claim_C9_dispatch_amended :
    ∀ m : ChatMessage,
      (m.content = thinkingSentinel → renderMessage m = RenderView.typing) ∧
      (m.content ≠ thinkingSentinel → m.role = Role.user →
        renderMessage m = RenderView.literal m.content) ∧
      (m.content ≠ thinkingSentinel → m.role = Role.assistant →
        renderMessage m = RenderView.markdown m.content) := by
  intro m
  refine ⟨?senti, ?usr, ?asst⟩
  case senti =>
    intro h
    unfold renderMessage
    rw [if_pos h]
  case usr =>
    intro h1 h2
    unfold renderMessage
    rw [if_neg h1, if_neg (by rw [h2]; decide)]
  case asst =>
    intro h1 h2
    unfold renderMessage
    rw [if_neg h1, if_pos h2]

theorem claim_C9_dispatch_amended_witness :
    renderMessage ⟨Role.assistant, thinkingSentinel⟩ = RenderView.typing ∧
    renderMessage ⟨Role.user, ("echo".data)⟩ =
      RenderView.literal ("echo".data) ∧
    renderMessage ⟨Role.assistant, ("hello".data)⟩ =
      RenderView.markdown ("hello".data) :=
  ⟨(claim_C9_dispatch_amended ⟨Role.assistant, thinkingSentinel⟩).1 rfl,
   (claim_C9_dispatch_amended ⟨Role.user, ("echo".data)⟩).2.1 (by decide) rfl,
   (claim_C9_dispatch_amended ⟨Role.assistant, ("hello".data)⟩).2.2
     (by decide) rfl⟩

/-- Claim C10: for a send that fires, the messages array of the outbound
request equals the conversation log as it existed before handleSend
appended (the log of the render closure, greeting included), followed by
exactly one user message carrying the trimmed input; the assistant
placeholder appended by handleSend is exactly the one element of the new
log that the request omits, and the request asks for streaming. -/
theorem claim_C10_request_messages :
    ∀ (s : ChatState) (modelId : List Char),
      jsTrim s.input ≠ [] → s.isStreaming = false →
      (buildChatRequest modelId s.messages ⟨Role.user, jsTrim s.input⟩).messages
          = s.messages ++ [⟨Role.user, jsTrim s.input⟩] ∧
      (handleSend s).messages =
        (buildChatRequest modelId s.messages
            ⟨Role.user, jsTrim s.input⟩).messages ++ [placeholderMsg] ∧
      (buildChatRequest modelId s.messages ⟨Role.user, jsTrim s.input⟩).stream
          = true := by
  intro s modelId h1 h2
  refine ⟨rfl, ?app, rfl⟩
  case app =>
    rw [handleSend_append s h1 h2]
    show s.messages ++ [⟨Role.user, jsTrim s.input⟩, placeholderMsg] =
      (s.messages ++ [⟨Role.user, jsTrim s.input⟩]) ++ [placeholderMsg]
    rw [List.append_assoc]
    rfl

theorem claim_C10_request_messages_witness :
    (buildChatRequest ("the-assistant-gemma3-4b:latest".data)
        (initState 9 (" hi ".data)).messages
        ⟨Role.user, jsTrim (" hi ".data)⟩).messages
      = [⟨Role.assistant, greeting 9⟩] ++ [⟨Role.user, jsTrim (" hi ".data)⟩] ∧
    (handleSend (initState 9 (" hi ".data))).messages =
      (buildChatRequest ("the-assistant-gemma3-4b:latest".data)
          (initState 9 (" hi ".data)).messages
          ⟨Role.user, jsTrim (" hi ".data)⟩).messages ++ [placeholderMsg] :=
  ⟨((claim_C10_request_messages (initState 9 (" hi ".data))
      ("the-assistant-gemma3-4b:latest".data)) (by decide) rfl).1,
   ((claim_C10_request_messages (initState 9 (" hi ".data))
      ("the-assistant-gemma3-4b:latest".data)) (by decide) rfl).2.1⟩
